import Mathlib

/-!
Verification of the Facebook group auto poster (src/main.py).

The development shallowly embeds the pure logic of the script: the links file
parser (read_links), the argument normalisation (parse_args), the composer
candidate scorer and its stable descending sort (the JavaScript inside
direct_scan), the composer discovery fallback chain (_find_composer together
with _try_click_composer_surface), and the sequential runner (run,
post_to_group, main).

Browser facilities (XPath and CSS queries, element visibility, the effect of a
click on the DOM) are delegated by the script to Selenium and to the page
scripting engine; the embedding treats them as inputs: a Page records the
result of each query, and a step function describes how a click transforms the
page.  Python and JavaScript strings are modelled as lists of characters.
-/

namespace Poster

/-- Text is modelled as a list of characters, mirroring Python and JavaScript
strings. -/
abbrev Str := List Char

/-- Lowercasing, as Python str.lower and JavaScript toLowerCase act on the
ASCII text the script manipulates. -/
def lowerStr (s : Str) : Str := s.map Char.toLower

/-- Whitespace recognised by Python str.strip and JavaScript trim on the ASCII
range. -/
def isSpaceChar (c : Char) : Bool :=
  c == ' ' || c == '\t' || c == '\n' || c == '\r' || c == '\x0b' || c == '\x0c'

/-- Python str.strip and JavaScript trim: drop whitespace from both ends. -/
def stripStr (s : Str) : Str :=
  ((s.dropWhile isSpaceChar).reverse.dropWhile isSpaceChar).reverse

/-- Boolean substring test: Python needle in hay, JavaScript hay.includes. -/
def isSub (needle hay : Str) : Bool := decide (needle <:+: hay)

/-- Boolean prefix test: JavaScript hay.startsWith(needle). -/
def startsW (needle hay : Str) : Bool := decide (needle <+: hay)

/-- Python str.split(sep) for a one-character separator: keeps empty fields,
returns one more field than there are separators. -/
def splitOnChar (sep : Char) : Str → List Str
  | [] => [[]]
  | c :: rest =>
    if c == sep then [] :: splitOnChar sep rest
    else
      match splitOnChar sep rest with
      | [] => [[c]]
      | f :: fs => (c :: f) :: fs

/-- One target of the run: a group URL plus the optional per-link selector
overrides, the dict built by read_links in src/main.py lines 192. -/
structure Target where
  url : Str
  composer_xpath : Option Str
  post_button_xpath : Option Str
deriving Repr, DecidableEq

/-- Field splitting of one stripped line, src/main.py lines 181-186: split on
tab when a tab occurs, otherwise on pipe when a pipe occurs, otherwise the
whole line is the single field; split fields are stripped. -/
def splitFields (line : Str) : List Str :=
  if line.contains '\t' then (splitOnChar '\t' line).map stripStr
  else if line.contains '|' then (splitOnChar '|' line).map stripStr
  else [line]

/-- Optional trailing field, src/main.py lines 190-191: present only when the
index exists and the field is nonempty. -/
def optField (parts : List Str) (i : Nat) : Option Str :=
  match parts.get? i with
  | some f => if f = [] then none else some f
  | none => none

/-- The domain substring required of every URL, src/main.py line 188. -/
def fbDomain : Str := "facebook.com".toList

/-- Loop of read_links, src/main.py lines 177-194, over the remaining lines
with the accumulated items: strip the line, skip blank lines and lines whose
first character is a hash, split the fields, skip lines whose first field does
not contain the domain substring, otherwise append the target and stop as soon
as the accumulated count reaches the limit. -/
def read_linksAux (limit : Nat) : List Str → List Target → List Target
  | [], items => items
  | raw :: rest, items =>
    let line := stripStr raw
    if line = [] ∨ line.head? = some '#' then read_linksAux limit rest items
    else
      let parts := splitFields line
      let url := parts.headD []
      if isSub fbDomain url = false then read_linksAux limit rest items
      else
        let items2 := items ++
          [{ url := url, composer_xpath := optField parts 1,
             post_button_xpath := optField parts 2 }]
        if limit ≤ items2.length then items2 else read_linksAux limit rest items2

/-- read_links, src/main.py lines 173-195, on the list of lines of the links
file. -/
def read_links (lines : List Str) (limit : Nat) : List Target :=
  read_linksAux limit lines []

/-- The per-line decision of the read_links loop body, src/main.py lines
178-192: none for a blank line, a comment line, or a line whose first field
lacks the domain substring; otherwise the target with its URL and optional
overrides.  read_links is this map over the lines, cut at the limit (the
characterisation proved for the parser claim). -/
def parseLine (raw : Str) : Option Target :=
  if stripStr raw = [] ∨ (stripStr raw).head? = some '#' then none
  else if isSub fbDomain ((splitFields (stripStr raw)).headD []) = false then none
  else some { url := (splitFields (stripStr raw)).headD [],
              composer_xpath := optField (splitFields (stripStr raw)) 1,
              post_button_xpath := optField (splitFields (stripStr raw)) 2 }

/-- Composer keywords, src/main.py lines 62-67.  The set _COMPOSER_KEY_SET
lowercases them; the literals are already lowercase, so the set holds the same
eight strings (order never matters to the scorer, which adds over all of
them). -/
def COMPOSER_KEYWORDS : List Str :=
  ["tulis sesuatu".toList, "tulis sesuatu...".toList,
   "apa yang anda pikirkan".toList, "apa yang kamu pikirkan".toList,
   "write something".toList, "what\x27s on your mind".toList,
   "write a post".toList, "write your post".toList]

/-- One DOM element as the scripts observe it: the attributes and properties
read by the scorer, the matcher of _try_click_composer_surface, and the
visible-and-enabled checks.  DOM structure queries (the CSS and XPath
selectors, closest) belong to the browser and are recorded in Page; closestId
records the element that closest([role=button],button,a) resolves to, falling
back to the element itself. -/
structure Elem where
  id : Nat
  displayed : Bool
  enabled : Bool
  tagName : Str
  role : Option Str
  ariaLabel : Option Str
  placeholder : Option Str
  contenteditableAttr : Option Str
  isContentEditable : Bool
  className : Str
  textContent : Str
  closestId : Nat
deriving Repr, DecidableEq

/-- Lowercased aria-label with null mapped to the empty string, as
(el.getAttribute("aria-label") or the empty string).toLowerCase(). -/
def ariaLower (e : Elem) : Str := lowerStr (e.ariaLabel.getD [])

/-- Lowercased placeholder attribute with null mapped to the empty string. -/
def phLower (e : Elem) : Str := lowerStr (e.placeholder.getD [])

/-- Trimmed and lowercased textContent. -/
def txtLower (e : Elem) : Str := lowerStr (stripStr e.textContent)

/-- Lowercased className. -/
def clsLower (e : Elem) : Str := lowerStr e.className

/-- One keyword hit of the scorer, src/main.py line 526: the keyword occurs in
the aria-label, or in the placeholder, or the text starts with it, or it
occurs in the text. -/
def kwHit (aria ph txt : Str) (k : Str) : Bool :=
  isSub k aria || isSub k ph || startsW k txt || isSub k txt

/-- Structural part of the scorer, src/main.py lines 522-525: textarea tag and
role textbox give 2 each, contenteditable gives 3 as a property or 2 as an
attribute, and a class-name hit gives 1.  The class regex is tested against
the lowercased class string, so its uiTextarea branch can never fire; it is
kept verbatim. -/
def scoreBase (e : Elem) : Nat :=
  ((if lowerStr e.tagName = "textarea".toList then 2 else 0) +
   (if e.role = some ("textbox".toList) then 2 else 0) +
   (if e.isContentEditable then 3
    else if e.contenteditableAttr = some ("true".toList) then 2 else 0) +
   (if isSub ("composer".toList) (clsLower e) || isSub ("notranslate".toList) (clsLower e) ||
       isSub ("editable".toList) (clsLower e) || isSub ("uiTextarea".toList) (clsLower e)
    then 1 else 0))

/-- The candidate scorer of direct_scan, src/main.py lines 517-528: the
structural score plus 3 for every keyword hit, accumulated over the keyword
list exactly as the JavaScript loop does. -/
def score (keys : List Str) (e : Elem) : Nat :=
  keys.foldl
    (fun s k => if kwHit (ariaLower e) (phLower e) (txtLower e) k then s + 3 else s)
    (scoreBase e)

/-- Order used by the scan, src/main.py line 530: the JavaScript comparator
(a,b) => b.s - a.s sorts by score descending; Array.prototype.sort is stable,
which the stable insertion sort below models. -/
def scoreDescRel (a b : Elem × Nat) : Prop := b.2 ≤ a.2

instance : DecidableRel scoreDescRel := fun a b => Nat.decLe b.2 a.2

instance : IsTotal (Elem × Nat) scoreDescRel := ⟨fun a b => Nat.le_total b.2 a.2⟩

instance : IsTrans (Elem × Nat) scoreDescRel := ⟨fun _ _ _ h1 h2 => Nat.le_trans h2 h1⟩

/-- Scored candidate list of direct_scan, src/main.py line 530: score every
element the composer CSS selector matched (in document order), keep those with
score above 2, and sort by score descending, equal scores keeping document
order. -/
def scoredCandidates (keys : List Str) (els : List Elem) : List (Elem × Nat) :=
  List.insertionSort scoreDescRel
    ((els.map (fun e => (e, score keys e))).filter (fun o => 2 < o.2))

/-- One page state, as the script can observe it through the browser.  The
selector engines (XPath for find_elements, CSS for querySelectorAll) belong to
Selenium and the page scripting engine, so a Page records their results in
document order: query gives the find_elements result of an XPath, scanEls the
elements matched by the composer CSS selector of direct_scan (line 529),
btnSpans the spans inside clickable surfaces and surfCands the generic click
targets scanned by _try_click_composer_surface (lines 431 and 443). -/
structure Page where
  query : Str → List Elem
  scanEls : List Elem
  btnSpans : List Elem
  surfCands : List Elem

/-- XPath of the Indonesian composer placeholder of the fast path,
src/main.py line 484. -/
def tulisXpath : Str :=
  "//div[@role=\x27button\x27 and .//span[contains(text(),\x27Tulis sesuatu\x27)]]".toList

/-- XPath of the opened Indonesian composer of the fast path, src/main.py
line 495. -/
def buatXpath : Str :=
  "//div[@role=\x27textbox\x27 and @aria-placeholder=\x27Buat postingan publik...\x27]".toList

/-- Static composer XPath list of direct_scan, src/main.py lines 544-550. -/
def staticComposerXpaths : List Str :=
  ["//div[@role=\x27textbox\x27 and @contenteditable=\x27true\x27]".toList,
   "//*[@data-pagelet=\x27GroupInlineComposer\x27]//div[@role=\x27textbox\x27 and @contenteditable=\x27true\x27]".toList,
   "//form//div[@role=\x27textbox\x27 and @contenteditable=\x27true\x27]".toList,
   "//textarea[@name=\x27xc_message\x27]".toList,
   "//textarea[@aria-label]".toList]

/-- First element of a find_elements result that is displayed and enabled: the
loop for e in elements, if e.is_displayed() and e.is_enabled(): return e. -/
def firstVisEnabled (l : List Elem) : Option Elem :=
  l.find? (fun e => e.displayed && e.enabled)

/-- Result of wait.until(EC.element_to_be_clickable(xpath)) on a page: the
condition locates the first match and polls its visibility and enabled state,
so on a fixed query result it succeeds exactly when the first match is
displayed and enabled; the timeout is caught by the surrounding except. -/
def clickableFirst (l : List Elem) : Option Elem :=
  match l.head? with
  | some e => if e.displayed && e.enabled then some e else none
  | none => none

/-- The matchAny of _try_click_composer_surface, src/main.py lines 426-429, on
an already normalised text: equal to a keyword, or starting with one, or
containing one. -/
def matchAnyKw (t : Str) : Bool :=
  COMPOSER_KEYWORDS.any (fun k => t = k || startsW k t || isSub k t)

/-- The norm of _try_click_composer_surface, line 425: trim then lowercase,
with null mapped to the empty string by the caller. -/
def normTxt (t : Str) : Str := lowerStr (stripStr t)

/-- The JavaScript of _try_click_composer_surface, src/main.py lines 422-459:
first span inside a clickable surface whose text matches a keyword, else first
generic candidate that is not contenteditable whose aria-label, text or
placeholder matches; the script clicks the closest clickable ancestor (or the
element itself) and reports whether it clicked.  The result is the id of the
clicked element, none when nothing matched. -/
def try_click_composer_surface (p : Page) : Option Nat :=
  match p.btnSpans.find? (fun sp => matchAnyKw (normTxt sp.textContent)) with
  | some sp => some sp.closestId
  | none =>
    match p.surfCands.find? (fun el =>
        !el.isContentEditable &&
          (matchAnyKw (normTxt (el.ariaLabel.getD [])) ||
           matchAnyKw (normTxt el.textContent) ||
           matchAnyKw (normTxt (el.placeholder.getD [])))) with
    | some el => some el.closestId
    | none => none

/-- Scored part of direct_scan, src/main.py lines 514-541: run the scorer over
the composer CSS matches and return the first scored candidate that is
displayed and enabled. -/
def directScanScoredPick (p : Page) : Option Elem :=
  firstVisEnabled ((scoredCandidates COMPOSER_KEYWORDS p.scanEls).map Prod.fst)

/-- Static XPath part of direct_scan, src/main.py lines 544-556: first XPath
of the list yielding a displayed and enabled element. -/
def staticXpathScan (p : Page) : List Str → Option Elem
  | [] => none
  | xp :: rest =>
    match firstVisEnabled (p.query xp) with
    | some e => some e
    | none => staticXpathScan p rest

/-- direct_scan, src/main.py lines 512-557: the scored scan, then the static
XPath list. -/
def direct_scan (p : Page) : Option Elem :=
  match directScanScoredPick p with
  | some e => some e
  | none => staticXpathScan p staticComposerXpaths

/-- Surface click retry loop of _find_composer, src/main.py lines 563-569: up
to fuel rounds, click a composer surface when one matches (transforming the
page by step) and rescan; a round whose surface click found nothing leaves the
page unchanged and the loop continues. -/
def surfaceClickLoop (step : Page → Nat → Page) : Nat → Page → Option Elem × Page
  | 0, p => (none, p)
  | Nat.succ n, p =>
    match try_click_composer_surface p with
    | some cid =>
      match direct_scan (step p cid) with
      | some c => (some c, step p cid)
      | none => surfaceClickLoop step n (step p cid)
    | none => surfaceClickLoop step n p

/-- Tail of _find_composer after the fast path, src/main.py lines 559-570:
direct_scan, then the surface click retry loop with three rounds. -/
def findComposerAfterFast (step : Page → Nat → Page) (p : Page) : Option Elem × Page :=
  match direct_scan p with
  | some c => (some c, p)
  | none => surfaceClickLoop step 3 p

/-- Fast path of _find_composer, src/main.py lines 481-510: wait for the
Indonesian placeholder to be clickable, click it, wait for the opened
Indonesian composer to be clickable, click it and return it; on either wait
failing, fall through to the scan on the page as the clicks left it. -/
def findComposerFast (step : Page → Nat → Page) (p : Page) : Option Elem × Page :=
  match clickableFirst (p.query tulisXpath) with
  | some ph =>
    match clickableFirst ((step p ph.id).query buatXpath) with
    | some ce => (some ce, step (step p ph.id) ce.id)
    | none => findComposerAfterFast step (step p ph.id)
  | none => findComposerAfterFast step p

/-- _find_composer, src/main.py lines 469-570: the override XPath when one is
given, then the Indonesian fast path, then direct_scan, then the surface click
retry loop.  The pair returned is the element found (none when discovery
failed) together with the page as the clicks performed during discovery left
it. -/
def find_composer (step : Page → Nat → Page) (p : Page) (ov : Option Str) :
    Option Elem × Page :=
  match ov with
  | some xp =>
    match firstVisEnabled (p.query xp) with
    | some e => (some e, p)
    | none => findComposerFast step p
  | none => findComposerFast step p

/-- One discovery strategy: reads the page, may click (changing the page), and
may produce the element found. -/
def Strategy : Type := Page → Option Elem × Page

/-- Run strategies in order on the threaded page state, moving to the next
strategy exactly when the current one produced no element, and stopping at the
first element produced. -/
def runChain : List Strategy → Page → Option Elem × Page
  | [], p => (none, p)
  | s :: rest, p =>
    match s p with
    | (some e, p2) => (some e, p2)
    | (none, p2) => runChain rest p2

/-- OverrideSelector strategy: the first displayed and enabled match of the
override XPath, when an override is given. -/
def stratOverride (ov : Option Str) : Strategy := fun p =>
  match ov with
  | some xp => (firstVisEnabled (p.query xp), p)
  | none => (none, p)

/-- The Indonesian fast path as a strategy. -/
def stratFastPath (step : Page → Nat → Page) : Strategy := fun p =>
  match clickableFirst (p.query tulisXpath) with
  | some ph =>
    match clickableFirst ((step p ph.id).query buatXpath) with
    | some ce => (some ce, step (step p ph.id) ce.id)
    | none => (none, step p ph.id)
  | none => (none, p)

/-- ScoredScan strategy: the scored part of direct_scan. -/
def stratScoredScan : Strategy := fun p => (directScanScoredPick p, p)

/-- StaticSelectorList strategy: the static XPath part of direct_scan. -/
def stratStaticList : Strategy := fun p =>
  (staticXpathScan p staticComposerXpaths, p)

/-- SurfaceClickRetry strategy: at most three surface click rounds, each
followed by a rescan. -/
def stratSurfaceRetry (step : Page → Nat → Page) : Strategy := fun p =>
  surfaceClickLoop step 3 p

/-- Modelled from the claim: the discovery chain in the order the
specification states it, OverrideSelector, then ScoredScan, then
StaticSelectorList, then SurfaceClickRetry at most three times, then not
found.  It omits the Indonesian fast path the code runs between the override
and the scored scan; comparing find_composer with this chain settles the order
claim. -/
def composerSpecChain (step : Page → Nat → Page) (ov : Option Str) (p : Page) :
    Option Elem × Page :=
  runChain [stratOverride ov, stratScoredScan, stratStaticList, stratSurfaceRetry step] p

/-- The discovery chain with the fast path inserted where the code runs it:
this is the strategy order find_composer actually implements. -/
def composerChainWithFastPath (step : Page → Nat → Page) (ov : Option Str) (p : Page) :
    Option Elem × Page :=
  runChain [stratOverride ov, stratFastPath step, stratScoredScan, stratStaticList,
    stratSurfaceRetry step] p

/-- The Config dataclass of src/main.py lines 36-59, restricted to the fields
the verified logic reads.  Delays are rationals standing for the Python
floats, whose only uses here are comparison, swap and being handed to
random.uniform. -/
structure Config where
  email : Str
  password : Str
  message : Str
  limit : Int
  delay_min : Rat
  delay_max : Rat
  dry_run : Bool
  inspect : Bool
  manual_post : Bool
deriving Repr, DecidableEq

/-- The inputs parse_args works from once flags, environment and files are
resolved: message is the flag or the message file content (empty when absent),
email and password the flag or environment values (empty when absent). -/
structure ArgsEnv where
  email : Str
  password : Str
  message : Str
  limit : Int
  delay_min : Rat
  delay_max : Rat
  dry_run : Bool
  inspect : Bool
  manual_post : Bool
deriving Repr, DecidableEq

/-- parse_args, src/main.py lines 81-169, validation and normalisation: a
missing message or missing credentials outside dry-run and inspect mode
aborts with exit status 2 (the error carries the stderr message); otherwise
credentials get dummy defaults, the delay bounds are swapped when reversed,
and the limit is clamped to at least 1. -/
def parse_args (a : ArgsEnv) : Except Str Config :=
  if a.message = [] ∧ a.dry_run = false ∧ a.inspect = false then
    Except.error ("Error: no message provided.".toList)
  else if (a.email = [] ∨ a.password = []) ∧ a.dry_run = false ∧ a.inspect = false then
    Except.error ("Error: missing credentials.".toList)
  else
    Except.ok
      { email := if a.email = [] then "dummy@example.com".toList else a.email,
        password := if a.password = [] then "dummy_password".toList else a.password,
        message := a.message,
        limit := max 1 a.limit,
        delay_min := if a.delay_max < a.delay_min then a.delay_max else a.delay_min,
        delay_max := if a.delay_max < a.delay_min then a.delay_min else a.delay_max,
        dry_run := a.dry_run,
        inspect := a.inspect,
        manual_post := a.manual_post }

/-- The error conditions of parse_args: exactly the two fatal configuration
checks of src/main.py lines 128-134. -/
def configError (a : ArgsEnv) : Prop :=
  (a.message = [] ∧ a.dry_run = false ∧ a.inspect = false) ∨
    ((a.email = [] ∨ a.password = []) ∧ a.dry_run = false ∧ a.inspect = false)

/-- Outcome of the browser-dependent steps of one target, abstracting what the
live page lets post_to_group do: whether composer discovery found an element,
whether text entry (including its scripted fallback) succeeded, and whether a
submit control was found and clicked (including all its fallbacks). -/
structure TargetOutcome where
  composerFound : Bool
  setTextOk : Bool
  clickPostOk : Bool
deriving Repr, DecidableEq

/-- Events the runner claims reason about: stderr messages, the dry-run
listing, browser driver activity, per-target warnings, the randomized sleep
(recording the bounds handed to random.uniform), and the summary. -/
inductive Ev where
  | errMsg (m : Str)
  | dryRunHeader (email : Str) (n : Nat)
  | dryRunItem (i : Nat) (url : Str)
  | driverInit
  | loginCall
  | targetHeader (i n : Nat) (url : Str)
  | processTarget (url : Str)
  | warn (url : Str) (msg : Str)
  | sleepUniform (lo hi : Rat)
  | summary (ok n : Nat)
  | driverQuit
deriving Repr, DecidableEq

/-- Whether an event is a call into the browser driver. -/
def isDriverCall : Ev → Bool
  | Ev.driverInit => true
  | Ev.loginCall => true
  | Ev.processTarget _ => true
  | Ev.driverQuit => true
  | _ => false

/-- The try block of post_to_group, src/main.py lines 688-804, as the
exception flow it implements: composer not found raises, inspect mode returns
early, failed text entry raises, manual mode waits and returns, a submit
control never clicked raises; otherwise the target succeeded.  Navigation
exceptions are swallowed by the inner handler (lines 690-698) and never
escape. -/
def postAttempt (cfg : Config) (o : TargetOutcome) : Except Str Bool :=
  if o.composerFound = false then Except.error ("Composer not found".toList)
  else if cfg.inspect then Except.ok true
  else if o.setTextOk = false then Except.error ("Failed to set message text".toList)
  else if cfg.manual_post then Except.ok true
  else if o.clickPostOk = false then Except.error ("Post button not clicked".toList)
  else Except.ok true

/-- post_to_group, src/main.py lines 680-814: the except handler catches every
exception of the attempt, logs a warning carrying the offending URL, and turns
the target into a failure; cleanup never raises. -/
def post_to_group (cfg : Config) (o : TargetOutcome) (url : Str) : Bool × List Ev :=
  match postAttempt cfg o with
  | Except.ok b => (b, [])
  | Except.error m => (false, [Ev.warn url m])

/-- The loop of run, src/main.py lines 827-831, from a 1-based index and a
success count: print the target header, process the target, and sleep a
uniform random duration from the configured delay interval after every
target. -/
def runTargets (cfg : Config) (outcome : Nat → TargetOutcome) (total : Nat) :
    Nat → Nat → List Target → Nat × List Ev
  | _, ok, [] => (ok, [])
  | idx, ok, t :: rest =>
    let pr := post_to_group cfg (outcome idx) t.url
    let ok2 := if pr.1 then ok + 1 else ok
    let tail := runTargets cfg outcome total (idx + 1) ok2 rest
    (tail.1,
      Ev.targetHeader idx total t.url :: Ev.processTarget t.url ::
        (pr.2 ++ (Ev.sleepUniform cfg.delay_min cfg.delay_max :: tail.2)))

/-- run, src/main.py lines 817-841: in dry-run mode print the header and the
1-based listing of the targets and return without touching the driver;
otherwise start the driver, log in (modelled as succeeding; its failure aborts
the whole run by design), process every target, print the summary and quit
the driver. -/
def run (cfg : Config) (outcome : Nat → TargetOutcome) (links : List Target) : List Ev :=
  if cfg.dry_run then
    Ev.dryRunHeader cfg.email links.length ::
      links.enum.map (fun pr => Ev.dryRunItem (pr.1 + 1) pr.2.url)
  else
    let r := runTargets cfg outcome links.length 1 0 links
    Ev.driverInit :: Ev.loginCall ::
      (r.2 ++ [Ev.summary r.1 links.length, Ev.driverQuit])

/-- main, src/main.py lines 846-865: a parse_args failure exits with status 2
before anything else; a missing links file prints the error and returns 2; no
valid targets prints the notice and returns 1; otherwise the run happens and
main returns 0.  The links file is none when missing, otherwise its lines. -/
def mainModel (a : ArgsEnv) (file : Option (List Str)) (outcome : Nat → TargetOutcome) :
    Int × List Ev :=
  match parse_args a with
  | Except.error m => (2, [Ev.errMsg m])
  | Except.ok cfg =>
    match file with
    | none => (2, [Ev.errMsg ("Links file not found".toList)])
    | some lines =>
      let links := read_links lines cfg.limit.toNat
      if links = [] then
        (1, [Ev.errMsg ("No valid facebook.com links found.".toList)])
      else (0, run cfg outcome links)

/-- Projection selecting the processed-target events. -/
def processedUrl : Ev → Option Str
  | Ev.processTarget u => some u
  | _ => none

/-- Whether an event is a target processing or an inter-target sleep. -/
def evProcOrSleep : Ev → Bool
  | Ev.processTarget _ => true
  | Ev.sleepUniform _ _ => true
  | _ => false

/-- An element whose aria-label was extended at the end by extra text, the
alteration the scorer monotonicity claim quantifies over (a missing label
counts as the empty one, as the scorer reads it). -/
def appendToAria (e : Elem) (extra : Str) : Elem :=
  { e with ariaLabel := some ((e.ariaLabel.getD []) ++ extra) }

/-- A neutral element: displayed and enabled div with no attributes. -/
def elemBase : Elem :=
  { id := 0, displayed := true, enabled := true, tagName := "div".toList,
    role := none, ariaLabel := none, placeholder := none,
    contenteditableAttr := none, isContentEditable := false,
    className := [], textContent := [], closestId := 0 }

/-- A click transition that leaves the page unchanged: the static page of the
idempotence claim. -/
def stepId : Page → Nat → Page := fun p _ => p

/-- Clickable Indonesian placeholder surface for the fast path pages. -/
def phElemC1 : Elem :=
  { elemBase with
    id := 1, role := some ("button".toList),
    textContent := "Tulis sesuatu".toList, closestId := 1 }

/-- The composer the fast path opens. -/
def ceElemC1 : Elem :=
  { elemBase with
    id := 2, role := some ("textbox".toList), closestId := 2 }

/-- A page on which only the Indonesian fast path can find a composer: the
placeholder and the opened composer answer their XPaths, every other query and
scan is empty. -/
def pageC1 : Page :=
  { query := fun s =>
      if s = tulisXpath then [phElemC1]
      else if s = buatXpath then [ceElemC1] else [],
    scanEls := [], btnSpans := [], surfCands := [] }

/-- An editable textbox candidate for the scored scan. -/
def scanElemC6 : Elem :=
  { elemBase with
    id := 3, role := some ("textbox".toList), isContentEditable := true }

/-- A static page whose scored scan finds a composer. -/
def pageC6 : Page :=
  { query := fun _ => [], scanEls := [scanElemC6], btnSpans := [], surfCands := [] }

/-- The third line of the specification example for the link parser. -/
def rawC4 : Str := "https://facebook.com/groups/2|//custom/xpath".toList

/-- The lines of the specification example for the link parser. -/
def linesC5 : List Str :=
  ["https://facebook.com/groups/1".toList, "not-a-url".toList, rawC4]

/-- The specification example extended with a comment line and a blank line. -/
def linesC4 : List Str :=
  ["# note".toList, "   ".toList, "https://facebook.com/groups/1".toList,
   "not-a-url".toList, rawC4]

/-- A concrete non-dry-run configuration. -/
def cfgC7 : Config :=
  { email := "user@example.com".toList, password := "pw".toList,
    message := "hello".toList, limit := 5, delay_min := 1, delay_max := 2,
    dry_run := false, inspect := false, manual_post := false }

/-- The same configuration in dry-run mode. -/
def cfgC9 : Config :=
  { cfgC7 with
    dry_run := true }

/-- A browser that never lets discovery find a composer. -/
def outcomeFail : Nat → TargetOutcome :=
  fun _ => { composerFound := false, setTextOk := true, clickPostOk := true }

/-- Two concrete targets. -/
def linksC7 : List Target :=
  [{ url := "https://facebook.com/groups/1".toList, composer_xpath := none,
     post_button_xpath := none },
   { url := "https://facebook.com/groups/2".toList, composer_xpath := none,
     post_button_xpath := none }]

/-- Arguments with no message and no credentials outside dry-run and inspect
mode: a fatal configuration error. -/
def argsBad : ArgsEnv :=
  { email := [], password := [], message := [], limit := 40,
    delay_min := 4, delay_max := 9, dry_run := false, inspect := false,
    manual_post := false }

/-- Well-formed arguments. -/
def argsOk : ArgsEnv :=
  { email := "user@example.com".toList, password := "pw".toList,
    message := "hello".toList, limit := 40, delay_min := 4, delay_max := 9,
    dry_run := false, inspect := false, manual_post := false }

/-- The configuration parse_args produces from argsOk. -/
def cfgOkC8 : Config :=
  { email := "user@example.com".toList, password := "pw".toList,
    message := "hello".toList, limit := 40, delay_min := 4, delay_max := 9,
    dry_run := false, inspect := false, manual_post := false }

/-- Arguments with reversed delay bounds and a nonpositive limit. -/
def argsC10 : ArgsEnv :=
  { argsOk with
    delay_min := 9, delay_max := 4, limit := -5 }

/-- The configuration parse_args produces from argsC10: bounds swapped, limit
clamped to 1. -/
def cfgC10 : Config :=
  { email := "user@example.com".toList, password := "pw".toList,
    message := "hello".toList, limit := 1, delay_min := 4, delay_max := 9,
    dry_run := false, inspect := false, manual_post := false }

/-! Helper lemmas. -/

/-- A substring of a string is a substring of any right extension of it. -/
theorem isSub_append_right (n h t : Str) (hs : isSub n h = true) :
    isSub n (h ++ t) = true := by
  simp only [isSub, decide_eq_true_eq] at hs ⊢
  rcases hs with ⟨u, v, rfl⟩
  exact ⟨u, v ++ t, by simp⟩

/-- The keyword loop of the scorer accumulates 3 per hit. -/
theorem foldl_hit_eq (f : Str → Bool) (b : Nat) (keys : List Str) :
    keys.foldl (fun s k => if f k then s + 3 else s) b = b + 3 * keys.countP f := by
  induction keys generalizing b with
  | nil => simp
  | cons k ks ih =>
    simp only [List.foldl_cons, ih, List.countP_cons]
    by_cases h : f k = true <;> simp [h] <;> omega

/-- The score is the structural score plus 3 per keyword hit. -/
theorem score_eq_base_add (keys : List Str) (e : Elem) :
    score keys e =
      scoreBase e + 3 * keys.countP (kwHit (ariaLower e) (phLower e) (txtLower e)) :=
  foldl_hit_eq _ _ keys

/-- Extending the aria-label extends its lowercasing. -/
theorem ariaLower_appendToAria (e : Elem) (extra : Str) :
    ariaLower (appendToAria e extra) = ariaLower e ++ lowerStr extra := by
  simp [ariaLower, appendToAria, lowerStr]

/-- Inserting into the scored list preserves each score class of the filter:
the element either lands in front of the remainder or behind a strictly
higher-scored head, so for any fixed score value the relative order of
candidates carrying it is untouched. -/
theorem filter_orderedInsert_scored (s : Nat) (x : Elem × Nat) (l : List (Elem × Nat)) :
    (List.orderedInsert scoreDescRel x l).filter (fun o => decide (o.2 = s)) =
      ((x :: l).filter (fun o => decide (o.2 = s))) := by
  induction l with
  | nil => rfl
  | cons y ys ih =>
    by_cases h : scoreDescRel x y
    · rw [List.orderedInsert, if_pos h]
    · rw [List.orderedInsert, if_neg h]
      have hxy : x.2 < y.2 := Nat.lt_of_not_le h
      simp only [List.filter_cons, ih]
      by_cases hx : x.2 = s
      · by_cases hy : y.2 = s
        · exfalso
          omega
        · simp [hx, hy]
      · by_cases hy : y.2 = s
        · simp [hx, hy]
        · simp [hx, hy]

/-- The stable insertion sort preserves each score class of the filter. -/
theorem filter_insertionSort_scored (s : Nat) (l : List (Elem × Nat)) :
    (List.insertionSort scoreDescRel l).filter (fun o => decide (o.2 = s)) =
      l.filter (fun o => decide (o.2 = s)) := by
  induction l with
  | nil => rfl
  | cons x xs ih =>
    rw [List.insertionSort, filter_orderedInsert_scored]
    simp only [List.filter_cons, ih]

/-- Lines already holding fewer items than the limit can never push the result
beyond the limit: the loop stops the moment the count reaches it. -/
theorem read_linksAux_length_le (limit : Nat) (lines : List Str) (items : List Target)
    (h : items.length < limit) : (read_linksAux limit lines items).length ≤ limit := by
  induction lines generalizing items with
  | nil => exact Nat.le_of_lt h
  | cons raw rest ih =>
    simp only [read_linksAux]
    split
    · exact ih items h
    · split
      · exact ih items h
      · split
        · simp only [List.length_append, List.length_cons, List.length_nil]
          omega
        · apply ih
          simp only [List.length_append, List.length_cons, List.length_nil] at *
          omega

/-- Every target the loop appends carries the domain substring, so the
invariant that all accumulated URLs carry it is preserved. -/
theorem read_linksAux_all_fb (limit : Nat) (lines : List Str) (items : List Target)
    (h : items.all (fun t => isSub fbDomain t.url) = true) :
    (read_linksAux limit lines items).all (fun t => isSub fbDomain t.url) = true := by
  induction lines generalizing items with
  | nil => exact h
  | cons raw rest ih =>
    simp only [read_linksAux]
    split
    · exact ih items h
    · split
      · exact ih items h
      · rename_i hfb
        rw [Bool.not_eq_false] at hfb
        split
        · simp only [List.all_append, List.all_cons, List.all_nil, h, hfb,
            Bool.and_true, Bool.true_and]
        · apply ih
          simp only [List.all_append, List.all_cons, List.all_nil, h, hfb,
            Bool.and_true, Bool.true_and]

/-! Claim theorems. -/

/-- C2.  For every DOM snapshot (the selector matches in document order) and
keyword set, the candidate scorer of direct_scan returns a list sorted by
score in descending order, equal-score candidates keeping DOM traversal
order (each score class of the output equals the score class of the document
ordered input), and it returns the empty list when no element matches; the
scorer is a total function, so it never raises. -/
theorem c2_scorer_sorted_stable (keys : List Str) (els : List Elem)
    (keys2 : List Str) (els2 : List Elem)
    (hnone : ∀ e ∈ els2, score keys2 e ≤ 2) :
    (scoredCandidates keys els).Pairwise scoreDescRel ∧
    (∀ s : Nat,
      (scoredCandidates keys els).filter (fun o => decide (o.2 = s)) =
        ((els.map (fun e => (e, score keys e))).filter (fun o => 2 < o.2)).filter
          (fun o => decide (o.2 = s))) ∧
    scoredCandidates keys2 els2 = [] := by
  refine ⟨List.sorted_insertionSort scoreDescRel _, fun s => filter_insertionSort_scored s _, ?_⟩
  have hnil : (els2.map (fun e => (e, score keys2 e))).filter (fun o => 2 < o.2) = [] := by
    rw [List.filter_eq_nil_iff]
    intro o ho
    rw [List.mem_map] at ho
    rcases ho with ⟨e, he, rfl⟩
    simpa using Nat.not_lt.mpr (hnone e he)
  rw [scoredCandidates, hnil]
  rfl

/-- C2 witness: on a neutral element nothing scores above the threshold, the
output is empty and trivially sorted and stable. -/
theorem c2_scorer_sorted_stable_witness :
    (scoredCandidates COMPOSER_KEYWORDS [elemBase]).Pairwise scoreDescRel ∧
    ((scoredCandidates COMPOSER_KEYWORDS [elemBase]).filter (fun o => decide (o.2 = 3)) =
      (([elemBase].map (fun e => (e, score COMPOSER_KEYWORDS e))).filter
        (fun o => 2 < o.2)).filter (fun o => decide (o.2 = 3))) ∧
    scoredCandidates COMPOSER_KEYWORDS [elemBase] = [] := by
  have h := c2_scorer_sorted_stable COMPOSER_KEYWORDS [elemBase] COMPOSER_KEYWORDS
    [elemBase] (by decide)
  exact ⟨h.1, h.2.1 3, h.2.2⟩

/-- C3.  Appending a keyword occurrence to the accessible label of an element
never decreases the score the scorer assigns to it: every keyword hit of the
old label survives in the extended label and the structural score ignores the
label. -/
theorem c3_score_monotone (keys : List Str) (e : Elem) (kw : Str) (hkw : kw ∈ keys) :
    score keys e ≤ score keys (appendToAria e kw) := by
  clear hkw
  rw [score_eq_base_add, score_eq_base_add]
  have hb : scoreBase (appendToAria e kw) = scoreBase e := rfl
  have hph : phLower (appendToAria e kw) = phLower e := rfl
  have htxt : txtLower (appendToAria e kw) = txtLower e := rfl
  rw [hb, hph, htxt]
  apply Nat.add_le_add_left
  apply Nat.mul_le_mul_left
  apply List.countP_mono_left
  intro k _ hhit
  rw [ariaLower_appendToAria]
  simp only [kwHit, Bool.or_eq_true] at hhit ⊢
  rcases hhit with ((h1 | h2) | h3) | h4
  · exact Or.inl (Or.inl (Or.inl (isSub_append_right k (ariaLower e) (lowerStr kw) h1)))
  · exact Or.inl (Or.inl (Or.inr h2))
  · exact Or.inl (Or.inr h3)
  · exact Or.inr h4

/-- C3 witness: a concrete element, keyword and keyword set. -/
theorem c3_score_monotone_witness :
    score COMPOSER_KEYWORDS elemBase ≤
      score COMPOSER_KEYWORDS (appendToAria elemBase ("write something".toList)) :=
  c3_score_monotone COMPOSER_KEYWORDS elemBase ("write something".toList) (by decide)

/-- A line parseLine skips (blank, comment, or domain miss) leaves the loop
accumulator alone. -/
theorem read_linksAux_cons_none (limit : Nat) (raw : Str) (rest : List Str)
    (items : List Target) (hpl : parseLine raw = none) :
    read_linksAux limit (raw :: rest) items = read_linksAux limit rest items := by
  unfold parseLine at hpl
  by_cases hskip : stripStr raw = [] ∨ (stripStr raw).head? = some '#'
  · simp only [read_linksAux]
    rw [if_pos hskip]
  · rw [if_neg hskip] at hpl
    by_cases hfb2 : isSub fbDomain ((splitFields (stripStr raw)).headD []) = false
    · simp only [read_linksAux]
      rw [if_neg hskip, if_pos hfb2]
    · rw [if_neg hfb2] at hpl
      cases hpl

/-- A line parseLine accepts appends its target, and the loop stops when the
limit is reached. -/
theorem read_linksAux_cons_some (limit : Nat) (raw : Str) (rest : List Str)
    (items : List Target) (tg : Target) (hpl : parseLine raw = some tg) :
    read_linksAux limit (raw :: rest) items =
      if limit ≤ (items ++ [tg]).length then items ++ [tg]
      else read_linksAux limit rest (items ++ [tg]) := by
  unfold parseLine at hpl
  by_cases hskip : stripStr raw = [] ∨ (stripStr raw).head? = some '#'
  · rw [if_pos hskip] at hpl
    cases hpl
  · rw [if_neg hskip] at hpl
    by_cases hfb2 : isSub fbDomain ((splitFields (stripStr raw)).headD []) = false
    · rw [if_pos hfb2] at hpl
      cases hpl
    · rw [if_neg hfb2] at hpl
      injection hpl with h2
      subst h2
      simp only [read_linksAux]
      rw [if_neg hskip, if_neg hfb2]

/-- Below the limit, the loop returns the accumulator followed by the parsed
lines, cut at the remaining room: skipped lines contribute nothing and targets
are appended in input order. -/
theorem read_linksAux_take (limit : Nat) (lines : List Str) :
    ∀ items : List Target, items.length < limit →
    read_linksAux limit lines items =
      items ++ (lines.filterMap parseLine).take (limit - items.length) := by
  induction lines with
  | nil =>
    intro items h
    simp [read_linksAux]
  | cons raw rest ih =>
    intro items h
    cases hpl : parseLine raw with
    | none =>
      rw [read_linksAux_cons_none limit raw rest items hpl, ih items h]
      simp [List.filterMap_cons, hpl]
    | some tg =>
      rw [read_linksAux_cons_some limit raw rest items tg hpl]
      have hfm : (raw :: rest).filterMap parseLine = tg :: rest.filterMap parseLine := by
        simp [List.filterMap_cons, hpl]
      rw [hfm]
      have hlen : (items ++ [tg]).length = items.length + 1 := by simp
      have htake : limit - items.length = (limit - items.length - 1) + 1 := by omega
      rw [htake, List.take_succ_cons]
      by_cases hstop : limit ≤ items.length + 1
      · rw [if_pos (by rw [hlen]; exact hstop)]
        have hl0 : limit - items.length - 1 = 0 := by omega
        rw [hl0]
        simp
      · rw [if_neg (by rw [hlen]; exact hstop)]
        have h2 : (items ++ [tg]).length < limit := by
          rw [hlen]
          omega
        rw [ih (items ++ [tg]) h2]
        have h3 : limit - (items ++ [tg]).length = limit - items.length - 1 := by
          rw [hlen]
          omega
        rw [h3]
        simp

/-- C4.  For any input file and configured limit, read_links is the per-line
parse of every line, in input order, cut at the limit; a blank line or a line
starting with a hash parses to nothing (is ignored); and a non-blank,
non-comment line whose first field carries the domain substring parses to
exactly the URL as field 1, the optional composer override as field 2 and the
optional submit override as field 3, split on tab or pipe with field order
preserved (splitFields splits the stripped line on tab when one occurs, else
on pipe, and strips the fields; optField drops missing and empty trailing
fields). -/
theorem c4_link_parser_fields (lines : List Str) (limit : Nat) (raw2 raw3 : Str)
    (hlim : 1 ≤ limit)
    (hskip : stripStr raw2 = [] ∨ (stripStr raw2).head? = some '#')
    (hne : stripStr raw3 ≠ [])
    (hhash : (stripStr raw3).head? ≠ some '#')
    (hfb : isSub fbDomain ((splitFields (stripStr raw3)).headD []) = true) :
    read_links lines limit = (lines.filterMap parseLine).take limit ∧
    parseLine raw2 = none ∧
    parseLine raw3 =
      some { url := (splitFields (stripStr raw3)).headD [],
             composer_xpath := optField (splitFields (stripStr raw3)) 1,
             post_button_xpath := optField (splitFields (stripStr raw3)) 2 } := by
  refine ⟨?_, ?_, ?_⟩
  · have h0 := read_linksAux_take limit lines [] (by simpa using hlim)
    simpa [read_links] using h0
  · unfold parseLine
    rw [if_pos hskip]
  · have h1 : ¬(stripStr raw3 = [] ∨ (stripStr raw3).head? = some '#') := by
      rintro (h | h)
      · exact hne h
      · exact hhash h
    have h2 : ¬(isSub fbDomain ((splitFields (stripStr raw3)).headD []) = false) := by
      rw [hfb]
      decide
    unfold parseLine
    rw [if_neg h1, if_neg h2]

/-- C4 witness: the specification example extended with a comment line and a
blank line, with limit 10; the comment line is ignored and the example line
parses to its URL, a composer override and no submit override. -/
theorem c4_link_parser_fields_witness :
    read_links linesC4 10 = (linesC4.filterMap parseLine).take 10 ∧
    parseLine ("# note".toList) = none ∧
    parseLine rawC4 =
      some { url := (splitFields (stripStr rawC4)).headD [],
             composer_xpath := optField (splitFields (stripStr rawC4)) 1,
             post_button_xpath := optField (splitFields (stripStr rawC4)) 2 } :=
  c4_link_parser_fields linesC4 10 ("# note".toList) rawC4 (by decide) (by decide)
    (by decide) (by decide) (by decide)

/-- C5.  With a configured limit (parse_args guarantees at least 1), the
parser returns no target lacking the domain substring in its URL, and never
more targets than the limit. -/
theorem c5_link_parser_domain_limit (lines : List Str) (limit : Nat)
    (hlim : 1 ≤ limit) :
    (read_links lines limit).length ≤ limit ∧
    (read_links lines limit).all (fun t => isSub fbDomain t.url) = true :=
  ⟨read_linksAux_length_le limit lines [] (by simpa using hlim),
   read_linksAux_all_fb limit lines [] rfl⟩

/-- C5 witness: the specification example lines with limit 10. -/
theorem c5_link_parser_domain_limit_witness :
    (read_links linesC5 10).length ≤ 10 ∧
    (read_links linesC5 10).all (fun t => isSub fbDomain t.url) = true :=
  c5_link_parser_domain_limit linesC5 10 (by decide)

/-! Conditional evaluation equations for the discovery functions: each
rewrites one application once its scrutinees are fixed. -/

theorem runChain_nil (p : Page) : runChain [] p = (none, p) := rfl

theorem runChain_cons_some (s : Strategy) (rest : List Strategy) (p p2 : Page)
    (e : Elem) (h : s p = (some e, p2)) : runChain (s :: rest) p = (some e, p2) := by
  simp only [runChain, h]

theorem runChain_cons_none (s : Strategy) (rest : List Strategy) (p p2 : Page)
    (h : s p = (none, p2)) : runChain (s :: rest) p = runChain rest p2 := by
  simp only [runChain, h]

theorem runChain_single (s : Strategy) (p : Page) : runChain [s] p = s p := by
  cases h : s p with
  | mk r p2 =>
    cases r with
    | some e => rw [runChain_cons_some s [] p p2 e h]
    | none => rw [runChain_cons_none s [] p p2 h, runChain_nil]

theorem stratOverride_none (p : Page) : stratOverride none p = (none, p) := rfl

theorem stratOverride_some (xp : Str) (p : Page) :
    stratOverride (some xp) p = (firstVisEnabled (p.query xp), p) := rfl

theorem stratScoredScan_eq (p : Page) :
    stratScoredScan p = (directScanScoredPick p, p) := rfl

theorem stratStaticList_eq (p : Page) :
    stratStaticList p = (staticXpathScan p staticComposerXpaths, p) := rfl

theorem stratSurfaceRetry_eq (step : Page → Nat → Page) (p : Page) :
    stratSurfaceRetry step p = surfaceClickLoop step 3 p := rfl

theorem stratFastPath_no_ph (step : Page → Nat → Page) (p : Page)
    (h1 : clickableFirst (p.query tulisXpath) = none) :
    stratFastPath step p = (none, p) := by
  simp only [stratFastPath, h1]

theorem stratFastPath_ph_ce (step : Page → Nat → Page) (p : Page) (ph ce : Elem)
    (h1 : clickableFirst (p.query tulisXpath) = some ph)
    (h2 : clickableFirst ((step p ph.id).query buatXpath) = some ce) :
    stratFastPath step p = (some ce, step (step p ph.id) ce.id) := by
  simp only [stratFastPath, h1, h2]

theorem stratFastPath_ph_no_ce (step : Page → Nat → Page) (p : Page) (ph : Elem)
    (h1 : clickableFirst (p.query tulisXpath) = some ph)
    (h2 : clickableFirst ((step p ph.id).query buatXpath) = none) :
    stratFastPath step p = (none, step p ph.id) := by
  simp only [stratFastPath, h1, h2]

theorem direct_scan_scored (p : Page) (e : Elem)
    (h : directScanScoredPick p = some e) : direct_scan p = some e := by
  simp only [direct_scan, h]

theorem direct_scan_static (p : Page) (h : directScanScoredPick p = none) :
    direct_scan p = staticXpathScan p staticComposerXpaths := by
  simp only [direct_scan, h]

theorem staticXpathScan_cons_hit (p : Page) (xp : Str) (rest : List Str) (e : Elem)
    (h : firstVisEnabled (p.query xp) = some e) :
    staticXpathScan p (xp :: rest) = some e := by
  simp only [staticXpathScan, h]

theorem staticXpathScan_cons_miss (p : Page) (xp : Str) (rest : List Str)
    (h : firstVisEnabled (p.query xp) = none) :
    staticXpathScan p (xp :: rest) = staticXpathScan p rest := by
  simp only [staticXpathScan, h]

theorem surfaceClickLoop_noclick (step : Page → Nat → Page) (n : Nat) (p : Page)
    (h1 : try_click_composer_surface p = none) :
    surfaceClickLoop step (n + 1) p = surfaceClickLoop step n p := by
  simp only [surfaceClickLoop, h1]

theorem surfaceClickLoop_click_found (step : Page → Nat → Page) (n : Nat) (p : Page)
    (cid : Nat) (c : Elem) (h1 : try_click_composer_surface p = some cid)
    (h2 : direct_scan (step p cid) = some c) :
    surfaceClickLoop step (n + 1) p = (some c, step p cid) := by
  simp only [surfaceClickLoop, h1, h2]

theorem surfaceClickLoop_click_notfound (step : Page → Nat → Page) (n : Nat) (p : Page)
    (cid : Nat) (h1 : try_click_composer_surface p = some cid)
    (h2 : direct_scan (step p cid) = none) :
    surfaceClickLoop step (n + 1) p = surfaceClickLoop step n (step p cid) := by
  simp only [surfaceClickLoop, h1, h2]

theorem findComposerAfterFast_found (step : Page → Nat → Page) (p : Page) (c : Elem)
    (h : direct_scan p = some c) : findComposerAfterFast step p = (some c, p) := by
  simp only [findComposerAfterFast, h]

theorem findComposerAfterFast_notfound (step : Page → Nat → Page) (p : Page)
    (h : direct_scan p = none) :
    findComposerAfterFast step p = surfaceClickLoop step 3 p := by
  simp only [findComposerAfterFast, h]

theorem findComposerFast_no_ph (step : Page → Nat → Page) (p : Page)
    (h1 : clickableFirst (p.query tulisXpath) = none) :
    findComposerFast step p = findComposerAfterFast step p := by
  simp only [findComposerFast, h1]

theorem findComposerFast_ph_ce (step : Page → Nat → Page) (p : Page) (ph ce : Elem)
    (h1 : clickableFirst (p.query tulisXpath) = some ph)
    (h2 : clickableFirst ((step p ph.id).query buatXpath) = some ce) :
    findComposerFast step p = (some ce, step (step p ph.id) ce.id) := by
  simp only [findComposerFast, h1, h2]

theorem findComposerFast_ph_no_ce (step : Page → Nat → Page) (p : Page) (ph : Elem)
    (h1 : clickableFirst (p.query tulisXpath) = some ph)
    (h2 : clickableFirst ((step p ph.id).query buatXpath) = none) :
    findComposerFast step p = findComposerAfterFast step (step p ph.id) := by
  simp only [findComposerFast, h1, h2]

theorem find_composer_none (step : Page → Nat → Page) (p : Page) :
    find_composer step p none = findComposerFast step p := rfl

theorem find_composer_ov_hit (step : Page → Nat → Page) (p : Page) (xp : Str) (e : Elem)
    (h : firstVisEnabled (p.query xp) = some e) :
    find_composer step p (some xp) = (some e, p) := by
  simp only [find_composer, h]

theorem find_composer_ov_miss (step : Page → Nat → Page) (p : Page) (xp : Str)
    (h : firstVisEnabled (p.query xp) = none) :
    find_composer step p (some xp) = findComposerFast step p := by
  simp only [find_composer, h]

/-! Every element discovery returns is displayed and enabled. -/

/-- An element found by firstVisEnabled is displayed and enabled. -/
theorem firstVisEnabled_spec (l : List Elem) (e : Elem)
    (h : firstVisEnabled l = some e) : e.displayed = true ∧ e.enabled = true := by
  have h2 := List.find?_some h
  simpa [Bool.and_eq_true] using h2

/-- An element found by clickableFirst is displayed and enabled. -/
theorem clickableFirst_spec (l : List Elem) (e : Elem)
    (h : clickableFirst l = some e) : e.displayed = true ∧ e.enabled = true := by
  unfold clickableFirst at h
  split at h
  · split at h
    · rename_i x hhead hcond
      injection h with h2
      subst h2
      simpa [Bool.and_eq_true] using hcond
    · cases h
  · cases h

/-- An element found by the static XPath scan is displayed and enabled. -/
theorem staticXpathScan_spec (p : Page) (xps : List Str) (e : Elem)
    (h : staticXpathScan p xps = some e) : e.displayed = true ∧ e.enabled = true := by
  induction xps with
  | nil => cases h
  | cons xp rest ih =>
    cases h1 : firstVisEnabled (p.query xp) with
    | some x =>
      rw [staticXpathScan_cons_hit p xp rest x h1] at h
      injection h with h2
      subst h2
      exact firstVisEnabled_spec _ _ h1
    | none =>
      rw [staticXpathScan_cons_miss p xp rest h1] at h
      exact ih h

/-- An element found by direct_scan is displayed and enabled. -/
theorem direct_scan_spec (p : Page) (e : Elem)
    (h : direct_scan p = some e) : e.displayed = true ∧ e.enabled = true := by
  cases h1 : directScanScoredPick p with
  | some x =>
    rw [direct_scan_scored p x h1] at h
    injection h with h2
    subst h2
    exact firstVisEnabled_spec _ _ h1
  | none =>
    rw [direct_scan_static p h1] at h
    exact staticXpathScan_spec _ _ _ h

/-- An element found by the surface click retry loop is displayed and
enabled. -/
theorem surfaceClickLoop_spec (step : Page → Nat → Page) (fuel : Nat) (p : Page)
    (e : Elem) (h : (surfaceClickLoop step fuel p).1 = some e) :
    e.displayed = true ∧ e.enabled = true := by
  induction fuel generalizing p with
  | zero => cases h
  | succ n ih =>
    cases h1 : try_click_composer_surface p with
    | none =>
      rw [surfaceClickLoop_noclick step n p h1] at h
      exact ih _ h
    | some cid =>
      cases h2 : direct_scan (step p cid) with
      | some c =>
        rw [surfaceClickLoop_click_found step n p cid c h1 h2] at h
        replace h : some c = some e := h
        injection h with h3
        subst h3
        exact direct_scan_spec _ _ h2
      | none =>
        rw [surfaceClickLoop_click_notfound step n p cid h1 h2] at h
        exact ih _ h

/-- An element found after the fast path is displayed and enabled. -/
theorem findComposerAfterFast_spec (step : Page → Nat → Page) (p : Page) (e : Elem)
    (h : (findComposerAfterFast step p).1 = some e) :
    e.displayed = true ∧ e.enabled = true := by
  cases h1 : direct_scan p with
  | some c =>
    rw [findComposerAfterFast_found step p c h1] at h
    replace h : some c = some e := h
    injection h with h2
    subst h2
    exact direct_scan_spec _ _ h1
  | none =>
    rw [findComposerAfterFast_notfound step p h1] at h
    exact surfaceClickLoop_spec _ _ _ _ h

/-- An element found by the fast path or later is displayed and enabled. -/
theorem findComposerFast_spec (step : Page → Nat → Page) (p : Page) (e : Elem)
    (h : (findComposerFast step p).1 = some e) :
    e.displayed = true ∧ e.enabled = true := by
  cases h1 : clickableFirst (p.query tulisXpath) with
  | none =>
    rw [findComposerFast_no_ph step p h1] at h
    exact findComposerAfterFast_spec _ _ _ h
  | some ph =>
    cases h2 : clickableFirst ((step p ph.id).query buatXpath) with
    | some ce =>
      rw [findComposerFast_ph_ce step p ph ce h1 h2] at h
      replace h : some ce = some e := h
      injection h with h3
      subst h3
      exact clickableFirst_spec _ _ h2
    | none =>
      rw [findComposerFast_ph_no_ce step p ph h1 h2] at h
      exact findComposerAfterFast_spec _ _ _ h

/-- Every element composer discovery returns is displayed and enabled. -/
theorem find_composer_spec (step : Page → Nat → Page) (p : Page) (ov : Option Str)
    (e : Elem) (h : (find_composer step p ov).1 = some e) :
    e.displayed = true ∧ e.enabled = true := by
  cases ov with
  | none =>
    rw [find_composer_none] at h
    exact findComposerFast_spec _ _ _ h
  | some xp =>
    cases h1 : firstVisEnabled (p.query xp) with
    | some x =>
      rw [find_composer_ov_hit step p xp x h1] at h
      replace h : some x = some e := h
      injection h with h2
      subst h2
      exact firstVisEnabled_spec _ _ h1
    | none =>
      rw [find_composer_ov_miss step p xp h1] at h
      exact findComposerFast_spec _ _ _ h

/-- Running ScoredScan, StaticSelectorList and SurfaceClickRetry in order is
the tail of _find_composer after the fast path. -/
theorem runChain_tail_eq (step : Page → Nat → Page) (p : Page) :
    runChain [stratScoredScan, stratStaticList, stratSurfaceRetry step] p =
      findComposerAfterFast step p := by
  cases h1 : directScanScoredPick p with
  | some e =>
    rw [runChain_cons_some _ _ _ p e (by rw [stratScoredScan_eq, h1]),
      findComposerAfterFast_found step p e (direct_scan_scored p e h1)]
  | none =>
    rw [runChain_cons_none _ _ _ p (by rw [stratScoredScan_eq, h1])]
    cases h2 : staticXpathScan p staticComposerXpaths with
    | some e =>
      rw [runChain_cons_some _ _ _ p e (by rw [stratStaticList_eq, h2]),
        findComposerAfterFast_found step p e (by rw [direct_scan_static p h1, h2])]
    | none =>
      rw [runChain_cons_none _ _ _ p (by rw [stratStaticList_eq, h2]),
        runChain_single, stratSurfaceRetry_eq,
        findComposerAfterFast_notfound step p (by rw [direct_scan_static p h1, h2])]

/-- _find_composer is the strategy chain with the fast path inserted. -/
theorem find_composer_eq_chain (step : Page → Nat → Page) (p : Page) (ov : Option Str) :
    find_composer step p ov = composerChainWithFastPath step ov p := by
  have hfast : ∀ q : Page,
      runChain [stratFastPath step, stratScoredScan, stratStaticList,
        stratSurfaceRetry step] q = findComposerFast step q := by
    intro q
    cases h1 : clickableFirst (q.query tulisXpath) with
    | none =>
      rw [runChain_cons_none _ _ _ q (stratFastPath_no_ph step q h1),
        runChain_tail_eq step q, findComposerFast_no_ph step q h1]
    | some ph =>
      cases h2 : clickableFirst ((step q ph.id).query buatXpath) with
      | some ce =>
        rw [runChain_cons_some _ _ _ _ ce (stratFastPath_ph_ce step q ph ce h1 h2),
          findComposerFast_ph_ce step q ph ce h1 h2]
      | none =>
        rw [runChain_cons_none _ _ _ _ (stratFastPath_ph_no_ce step q ph h1 h2),
          runChain_tail_eq step (step q ph.id),
          findComposerFast_ph_no_ce step q ph h1 h2]
  unfold composerChainWithFastPath
  cases ov with
  | none =>
    rw [runChain_cons_none _ _ _ p (stratOverride_none p), hfast p, find_composer_none]
  | some xp =>
    cases h1 : firstVisEnabled (p.query xp) with
    | some e =>
      rw [runChain_cons_some _ _ _ p e (by rw [stratOverride_some, h1]),
        find_composer_ov_hit step p xp e h1]
    | none =>
      rw [runChain_cons_none _ _ _ p (by rw [stratOverride_some, h1]),
        hfast p, find_composer_ov_miss step p xp h1]

/-- C1 counterexample: on pageC1 only the Indonesian fast path finds the
composer, so _find_composer returns it while the chain the claim states
(override, scored scan, static list, surface retry) finds nothing; the claimed
strategy order is therefore not the one the code runs. -/
theorem c1_strategy_order_counterexample :
    (find_composer stepId pageC1 none).1 = some ceElemC1 ∧
    (composerSpecChain stepId none pageC1).1 = none ∧
    (find_composer stepId pageC1 none).1 ≠ (composerSpecChain stepId none pageC1).1 := by
  refine ⟨by decide, by decide, by decide⟩

/-- C1 amended.  Discovery tries its strategies in exactly the order
OverrideSelector, then the fixed-XPath Indonesian fast path (click the Tulis
sesuatu placeholder, wait for the Buat postingan publik composer), then
ScoredScan, then StaticSelectorList, then SurfaceClickRetry at most 3 times,
then not found; it moves to the next strategy only when the current one yields
no visible-and-enabled candidate (the chain structure), and any element it
returns is visible and enabled. -/
theorem c1_strategy_order_amended (step : Page → Nat → Page) (p : Page) (ov : Option Str)
    (step2 : Page → Nat → Page) (p2 : Page) (ov2 : Option Str) (e : Elem)
    (hfound : (find_composer step2 p2 ov2).1 = some e) :
    find_composer step p ov = composerChainWithFastPath step ov p ∧
    e.displayed = true ∧ e.enabled = true :=
  ⟨find_composer_eq_chain step p ov,
   (find_composer_spec step2 p2 ov2 e hfound).1,
   (find_composer_spec step2 p2 ov2 e hfound).2⟩

/-- C1 witness: the amended chain equality and the visibility of the found
element on the concrete fast path page. -/
theorem c1_strategy_order_witness :
    find_composer stepId pageC1 none = composerChainWithFastPath stepId none pageC1 ∧
    ceElemC1.displayed = true ∧ ceElemC1.enabled = true :=
  c1_strategy_order_amended stepId pageC1 none stepId pageC1 none ceElemC1 (by decide)

/-- On a static page the surface click retry loop leaves the page unchanged. -/
theorem surfaceClickLoop_static (step : Page → Nat → Page)
    (h : ∀ q n, step q n = q) (fuel : Nat) (p : Page) :
    (surfaceClickLoop step fuel p).2 = p := by
  induction fuel generalizing p with
  | zero => rfl
  | succ n ih =>
    cases h1 : try_click_composer_surface p with
    | none =>
      rw [surfaceClickLoop_noclick step n p h1]
      exact ih p
    | some cid =>
      cases h2 : direct_scan (step p cid) with
      | some c => rw [surfaceClickLoop_click_found step n p cid c h1 h2, h p cid]
      | none =>
        rw [surfaceClickLoop_click_notfound step n p cid h1 h2, h p cid]
        exact ih p

/-- On a static page the tail after the fast path leaves the page unchanged. -/
theorem findComposerAfterFast_static (step : Page → Nat → Page)
    (h : ∀ q n, step q n = q) (p : Page) :
    (findComposerAfterFast step p).2 = p := by
  cases h1 : direct_scan p with
  | some c => rw [findComposerAfterFast_found step p c h1]
  | none =>
    rw [findComposerAfterFast_notfound step p h1]
    exact surfaceClickLoop_static step h 3 p

/-- On a static page _find_composer leaves the page unchanged. -/
theorem find_composer_static (step : Page → Nat → Page) (p : Page) (ov : Option Str)
    (h : ∀ q n, step q n = q) : (find_composer step p ov).2 = p := by
  have hfast : (findComposerFast step p).2 = p := by
    cases h1 : clickableFirst (p.query tulisXpath) with
    | none =>
      rw [findComposerFast_no_ph step p h1]
      exact findComposerAfterFast_static step h p
    | some ph =>
      cases h2 : clickableFirst ((step p ph.id).query buatXpath) with
      | some ce =>
        rw [findComposerFast_ph_ce step p ph ce h1 h2, h (step p ph.id) ce.id, h p ph.id]
      | none =>
        rw [findComposerFast_ph_no_ce step p ph h1 h2, h p ph.id]
        exact findComposerAfterFast_static step h p
  cases ov with
  | none =>
    rw [find_composer_none]
    exact hfast
  | some xp =>
    cases h1 : firstVisEnabled (p.query xp) with
    | some e => rw [find_composer_ov_hit step p xp e h1]
    | none =>
      rw [find_composer_ov_miss step p xp h1]
      exact hfast

/-- C6.  On a page whose DOM the discovery clicks do not change, a second
discovery call with the same override returns the same element (the whole
result, element and page, coincides). -/
theorem c6_discovery_idempotent (step : Page → Nat → Page) (p : Page) (ov : Option Str)
    (h : ∀ q n, step q n = q) :
    find_composer step (find_composer step p ov).2 ov = find_composer step p ov := by
  rw [find_composer_static step p ov h]

/-- C6 witness: a concrete static page whose scored scan finds the composer. -/
theorem c6_discovery_idempotent_witness :
    find_composer stepId (find_composer stepId pageC6 none).2 none =
      find_composer stepId pageC6 none :=
  c6_discovery_idempotent stepId pageC6 none (fun _ _ => rfl)

/-! Runner lemmas. -/

/-- One step of the target loop, lets unfolded. -/
theorem runTargets_cons_events (cfg : Config) (outcome : Nat → TargetOutcome)
    (total idx ok : Nat) (t : Target) (rest : List Target) :
    (runTargets cfg outcome total idx ok (t :: rest)).2 =
      Ev.targetHeader idx total t.url :: Ev.processTarget t.url ::
        ((post_to_group cfg (outcome idx) t.url).2 ++
          (Ev.sleepUniform cfg.delay_min cfg.delay_max ::
            (runTargets cfg outcome total (idx + 1)
              (if (post_to_group cfg (outcome idx) t.url).1 then ok + 1 else ok)
              rest).2)) := rfl

/-- post_to_group events carry no processed-target event. -/
theorem post_to_group_snd_filterMap (cfg : Config) (o : TargetOutcome) (u : Str) :
    (post_to_group cfg o u).2.filterMap processedUrl = [] := by
  unfold post_to_group
  split <;> rfl

/-- post_to_group events carry no processing or sleep event. -/
theorem post_to_group_snd_filter_procsleep (cfg : Config) (o : TargetOutcome) (u : Str) :
    (post_to_group cfg o u).2.filter evProcOrSleep = [] := by
  unfold post_to_group
  split <;> rfl

/-- A failing attempt makes post_to_group log exactly the warning with the
offending URL. -/
theorem post_to_group_warn (cfg : Config) (o : TargetOutcome) (u : Str) (m : Str)
    (h : postAttempt cfg o = Except.error m) :
    (post_to_group cfg o u).2 = [Ev.warn u m] := by
  unfold post_to_group
  rw [h]

/-- Every target of the loop is processed, in input order, whatever the
outcomes. -/
theorem runTargets_processed (cfg : Config) (outcome : Nat → TargetOutcome)
    (total : Nat) (ls : List Target) : ∀ (idx ok : Nat),
    (runTargets cfg outcome total idx ok ls).2.filterMap processedUrl =
      ls.map Target.url := by
  induction ls with
  | nil => intro idx ok; rfl
  | cons t rest ih =>
    intro idx ok
    rw [runTargets_cons_events]
    simp [List.filterMap_cons, List.filterMap_append, processedUrl,
      post_to_group_snd_filterMap, ih]

/-- Projecting the loop events to processing and sleeps gives one processing
and one sleep per target, in input order. -/
theorem runTargets_filter_procsleep (cfg : Config) (outcome : Nat → TargetOutcome)
    (total : Nat) (ls : List Target) : ∀ (idx ok : Nat),
    (runTargets cfg outcome total idx ok ls).2.filter evProcOrSleep =
      List.flatten (ls.map fun t => [Ev.processTarget t.url,
        Ev.sleepUniform cfg.delay_min cfg.delay_max]) := by
  induction ls with
  | nil => intro idx ok; rfl
  | cons t rest ih =>
    intro idx ok
    rw [runTargets_cons_events]
    simp [List.filter_cons, List.filter_append, evProcOrSleep,
      post_to_group_snd_filter_procsleep, ih]

/-- A failing target leaves its warning with the offending URL in the loop
events. -/
theorem runTargets_warn (cfg : Config) (outcome : Nat → TargetOutcome)
    (total : Nat) (ls : List Target) : ∀ (idx ok i : Nat) (t : Target) (m : Str),
    ls.get? i = some t → postAttempt cfg (outcome (idx + i)) = Except.error m →
    Ev.warn t.url m ∈ (runTargets cfg outcome total idx ok ls).2 := by
  induction ls with
  | nil =>
    intro idx ok i t m hget _
    simp at hget
  | cons hd rest ih =>
    intro idx ok i t m hget herr
    rw [runTargets_cons_events]
    cases i with
    | zero =>
      rw [Nat.add_zero] at herr
      have hht : hd = t := by simpa using hget
      subst hht
      rw [post_to_group_warn cfg (outcome idx) hd.url m herr]
      simp [List.mem_cons, List.mem_append]
    | succ j =>
      have hget2 : rest.get? j = some t := by simpa using hget
      have herr2 : postAttempt cfg (outcome (idx + 1 + j)) = Except.error m := by
        have heq : idx + 1 + j = idx + (j + 1) := by omega
        rw [heq]
        exact herr
      have hmem := ih (idx + 1)
        (if (post_to_group cfg (outcome idx) hd.url).1 then ok + 1 else ok)
        j t m hget2 herr2
      exact List.mem_cons_of_mem _ (List.mem_cons_of_mem _
        (List.mem_append_right _ (List.mem_cons_of_mem _ hmem)))

/-- C7.  Whatever a target in the list does (here: a failing attempt at
position i, whose exception post_to_group catches), the runner logs the
warning with the offending URL, still processes every target in input order,
and follows every target by a sleep of a uniform random duration from the
configured delay interval. -/
theorem c7_runner_continues (cfg : Config) (outcome : Nat → TargetOutcome)
    (links : List Target) (i : Nat) (t : Target) (m : Str)
    (hdry : cfg.dry_run = false)
    (hget : links.get? i = some t)
    (herr : postAttempt cfg (outcome (i + 1)) = Except.error m) :
    ((run cfg outcome links).filterMap processedUrl = links.map Target.url) ∧
    Ev.warn t.url m ∈ run cfg outcome links ∧
    ((run cfg outcome links).filter evProcOrSleep =
      List.flatten (links.map fun t2 => [Ev.processTarget t2.url,
        Ev.sleepUniform cfg.delay_min cfg.delay_max])) := by
  have hrun : run cfg outcome links =
      Ev.driverInit :: Ev.loginCall ::
        ((runTargets cfg outcome links.length 1 0 links).2 ++
          [Ev.summary (runTargets cfg outcome links.length 1 0 links).1 links.length,
           Ev.driverQuit]) := by
    simp [run, hdry]
  refine ⟨?_, ?_, ?_⟩
  · rw [hrun]
    simp [List.filterMap_cons, List.filterMap_append, processedUrl,
      runTargets_processed cfg outcome links.length links 1 0]
  · rw [hrun]
    have herr2 : postAttempt cfg (outcome (1 + i)) = Except.error m := by
      rw [Nat.add_comm]
      exact herr
    have hmem := runTargets_warn cfg outcome links.length links 1 0 i t m hget herr2
    exact List.mem_cons_of_mem _ (List.mem_cons_of_mem _ (List.mem_append_left _ hmem))
  · rw [hrun]
    simp [List.filter_cons, List.filter_append, evProcOrSleep,
      runTargets_filter_procsleep cfg outcome links.length links 1 0]

/-- C7 witness: two targets, both failing at composer discovery; both are
processed, the first failure is logged with its URL, and sleeps follow each
target. -/
theorem c7_runner_continues_witness :
    ((run cfgC7 outcomeFail linksC7).filterMap processedUrl = linksC7.map Target.url) ∧
    Ev.warn ("https://facebook.com/groups/1".toList) ("Composer not found".toList) ∈
      run cfgC7 outcomeFail linksC7 ∧
    ((run cfgC7 outcomeFail linksC7).filter evProcOrSleep =
      List.flatten (linksC7.map fun t2 => [Ev.processTarget t2.url,
        Ev.sleepUniform cfgC7.delay_min cfgC7.delay_max])) :=
  c7_runner_continues cfgC7 outcomeFail linksC7 0
    { url := "https://facebook.com/groups/1".toList, composer_xpath := none,
      post_button_xpath := none }
    ("Composer not found".toList) (by rfl) (by rfl) (by rfl)

/-- A fatal configuration error makes parse_args abort. -/
theorem parse_args_err_of_configError (a : ArgsEnv) (h : configError a) :
    ∃ m, parse_args a = Except.error m := by
  unfold parse_args
  by_cases h1 : a.message = [] ∧ a.dry_run = false ∧ a.inspect = false
  · rw [if_pos h1]
    exact ⟨_, rfl⟩
  · rw [if_neg h1]
    have h2 : (a.email = [] ∨ a.password = []) ∧ a.dry_run = false ∧ a.inspect = false := by
      rcases h with hA | hB
      · exact absurd hA h1
      · exact hB
    rw [if_pos h2]
    exact ⟨_, rfl⟩

/-- C8.  A fatal configuration error (missing message or credentials outside
dry-run and inspect mode) or a missing links file exits with status 2, before
any browser activity; finding no valid target exits with status 1; the two
statuses are distinct and both nonzero paths differ from the success status
0. -/
theorem c8_exit_codes (a : ArgsEnv) (file : Option (List Str))
    (outcome : Nat → TargetOutcome) (a2 : ArgsEnv) (lines2 : List Str)
    (cfg2 : Config) (outcome2 : Nat → TargetOutcome)
    (h1 : configError a ∨ file = none)
    (h2 : parse_args a2 = Except.ok cfg2)
    (h3 : read_links lines2 cfg2.limit.toNat = []) :
    (mainModel a file outcome).1 = 2 ∧
    ((mainModel a file outcome).2.all fun e => !isDriverCall e) = true ∧
    (mainModel a2 (some lines2) outcome2).1 = 1 ∧
    (mainModel a file outcome).1 ≠ (mainModel a2 (some lines2) outcome2).1 ∧
    (mainModel a file outcome).1 ≠ 0 := by
  have hmain : (mainModel a file outcome).1 = 2 ∧
      ((mainModel a file outcome).2.all fun e => !isDriverCall e) = true := by
    rcases h1 with hce | hfn
    · obtain ⟨m, hm⟩ := parse_args_err_of_configError a hce
      unfold mainModel
      rw [hm]
      exact ⟨rfl, rfl⟩
    · subst hfn
      unfold mainModel
      cases hpa : parse_args a with
      | error m => exact ⟨rfl, rfl⟩
      | ok cfg => exact ⟨rfl, rfl⟩
  have h12 : (mainModel a2 (some lines2) outcome2).1 = 1 := by
    unfold mainModel
    rw [h2]
    simp [h3]
  refine ⟨hmain.1, hmain.2, h12, ?_, ?_⟩
  · rw [hmain.1, h12]
    decide
  · rw [hmain.1]
    decide

/-- C8 witness: missing credentials and message exit with 2 and no driver
call; an input file with no valid link exits with 1. -/
theorem c8_exit_codes_witness :
    (mainModel argsBad none outcomeFail).1 = 2 ∧
    ((mainModel argsBad none outcomeFail).2.all fun e => !isDriverCall e) = true ∧
    (mainModel argsOk (some ["not-a-url".toList]) outcomeFail).1 = 1 ∧
    (mainModel argsBad none outcomeFail).1 ≠
      (mainModel argsOk (some ["not-a-url".toList]) outcomeFail).1 ∧
    (mainModel argsBad none outcomeFail).1 ≠ 0 :=
  c8_exit_codes argsBad none outcomeFail argsOk ["not-a-url".toList] cfgOkC8
    outcomeFail (Or.inl (Or.inl ⟨rfl, rfl, rfl⟩)) (by rfl) (by rfl)

/-- C9.  In dry-run mode the run is exactly the header followed by the 1-based
listing of every parsed target in input order, and it contains no browser
driver call. -/
theorem c9_dry_run (cfg : Config) (outcome : Nat → TargetOutcome)
    (links : List Target) (hdry : cfg.dry_run = true) :
    run cfg outcome links =
      Ev.dryRunHeader cfg.email links.length ::
        links.enum.map (fun pr => Ev.dryRunItem (pr.1 + 1) pr.2.url) ∧
    ((run cfg outcome links).all fun e => !isDriverCall e) = true := by
  have h1 : run cfg outcome links =
      Ev.dryRunHeader cfg.email links.length ::
        links.enum.map (fun pr => Ev.dryRunItem (pr.1 + 1) pr.2.url) := by
    simp [run, hdry]
  refine ⟨h1, ?_⟩
  rw [h1, List.all_cons]
  refine (Bool.and_eq_true _ _).mpr ⟨rfl, ?_⟩
  rw [List.all_eq_true]
  intro x hx
  rw [List.mem_map] at hx
  obtain ⟨pr, hpr, rfl⟩ := hx
  rfl

/-- C9 witness: the concrete dry-run configuration on two targets. -/
theorem c9_dry_run_witness :
    run cfgC9 outcomeFail linksC7 =
      Ev.dryRunHeader cfgC9.email linksC7.length ::
        linksC7.enum.map (fun pr => Ev.dryRunItem (pr.1 + 1) pr.2.url) ∧
    ((run cfgC9 outcomeFail linksC7).all fun e => !isDriverCall e) = true :=
  c9_dry_run cfgC9 outcomeFail linksC7 (by rfl)

/-- C10.  Every configuration parse_args produces has delay_min at most
delay_max (reversed bounds are swapped) and a limit of at least 1 (smaller
values are clamped). -/
theorem c10_config_invariants (a : ArgsEnv) (cfg : Config)
    (h : parse_args a = Except.ok cfg) :
    cfg.delay_min ≤ cfg.delay_max ∧ 1 ≤ cfg.limit := by
  unfold parse_args at h
  split at h
  · simp at h
  · split at h
    · simp at h
    · injection h with h2
      subst h2
      constructor
      · show (if a.delay_max < a.delay_min then a.delay_max else a.delay_min) ≤
          (if a.delay_max < a.delay_min then a.delay_min else a.delay_max)
        by_cases hc : a.delay_max < a.delay_min
        · rw [if_pos hc, if_pos hc]
          exact le_of_lt hc
        · rw [if_neg hc, if_neg hc]
          exact le_of_not_lt hc
      · show (1 : Int) ≤ max 1 a.limit
        exact le_max_left 1 a.limit

/-- C10 witness: reversed bounds and a negative limit are normalised. -/
theorem c10_config_invariants_witness :
    cfgC10.delay_min ≤ cfgC10.delay_max ∧ 1 ≤ cfgC10.limit :=
  c10_config_invariants argsC10 cfgC10 (by rfl)

end Poster
